import Mathlib

/-!
Shallow embedding of the reset-scheduling and countdown subsystem of
`frontend/src/App.js` (E2T weekly dashboard).

Time model: a JavaScript `Date` is an absolute instant, represented here as
`Int` milliseconds since the JS epoch.  The source only ever reads and writes
*local wall-clock fields* (`getDay`, `getHours`, `getMinutes`, `setDate`,
`setHours`, `setMinutes`, `setSeconds`); we model local time as a fixed-offset
clock (offset 0), so local fields are obtained by floor division / Euclidean
remainder on the millisecond count.  The JS epoch (1970-01-01) fell on a
Thursday, hence `getDay t = (dayIndex t + 4) % 7` with `0 = Sunday,
1 = Monday, …` exactly as in JS.  Lean's `/` and `%` on `Int` are Euclidean
(remainder always non-negative for a positive modulus), which coincides with
the floor semantics of local-field arithmetic, also for instants before the
epoch.
-/

namespace E2T

-- An instant (JS `Date`) is represented as `Int` milliseconds since the JS epoch.

def msPerSec : Int := 1000
def msPerMin : Int := 60000
def msPerHour : Int := 3600000
def msPerDay : Int := 86400000

/-- Index of the local calendar day containing `t` (day 0 = 1970-01-01, a Thursday). -/
def dayIndex (t : Int) : Int := t / msPerDay

/-- Milliseconds elapsed since local midnight, in `[0, 86400000)`. -/
def msOfDay (t : Int) : Int := t % msPerDay

/-- JS `Date.prototype.getDay`: day of week, `0 = Sunday, 1 = Monday, …`. -/
def getDay (t : Int) : Int := (dayIndex t + 4) % 7

/-- JS `Date.prototype.getHours` (local). -/
def getHours (t : Int) : Int := msOfDay t / msPerHour

/-- JS `Date.prototype.getMinutes` (local). -/
def getMinutes (t : Int) : Int := t % msPerHour / msPerMin

/-- JS `Date.prototype.getSeconds` (local). -/
def getSeconds (t : Int) : Int := t % msPerMin / msPerSec

/-- JS `Date.prototype.getMilliseconds`. -/
def getMilliseconds (t : Int) : Int := t % msPerSec

/-- Start of the local calendar day containing `t`. -/
def startOfDay (t : Int) : Int := msPerDay * dayIndex t

/-- Effect of `d.setSeconds(0, 0)`: zero the seconds and milliseconds fields,
keeping date, hour and minute — i.e. truncate to the minute. -/
def truncToMinute (t : Int) : Int := msPerMin * (t / msPerMin)

/-- Start of the local hour containing `t` (what `setMinutes(0,0,0)` would give). -/
def startOfHour (t : Int) : Int := msPerHour * (t / msPerHour)

/--
`getThisMondayNoon` from `App.js` (lines 43–50):
```js
function getThisMondayNoon(d = new Date()) {
  const day = d.getDay();               // 0=Sun,1=Mon
  const diffToMonday = (day + 6) % 7;   // days since Monday
  const monday = new Date(d);
  monday.setDate(d.getDate() - diffToMonday);
  monday.setHours(12, 0, 0, 0);         // 12:00 local
  return monday;
}
```
`setDate(getDate() - k)` moves the instant back `k` calendar days keeping the
time of day; `setHours(12,0,0,0)` then lands on local 12:00:00.000 of that day.
-/
def getThisMondayNoon (d : Int) : Int :=
  let day := getDay d
  let diffToMonday := (day + 6) % 7
  let monday := d - diffToMonday * msPerDay
  startOfDay monday + 12 * msPerHour

/--
`getNextResetTarget` from `App.js` (lines 51–57):
```js
function getNextResetTarget(now = new Date()) {
  const thisMondayNoon = getThisMondayNoon(now);
  if (now < thisMondayNoon) return thisMondayNoon;
  const next = new Date(thisMondayNoon);
  next.setDate(thisMondayNoon.getDate() + 7);
  return next;
}
```
-/
def getNextResetTarget (now : Int) : Int :=
  let thisMondayNoon := getThisMondayNoon now
  if now < thisMondayNoon then thisMondayNoon
  else thisMondayNoon + 7 * msPerDay

/-- The `{d, h, m, s}` record returned by `diffToDHMS`. -/
structure DHMS where
  d : Int
  h : Int
  m : Int
  s : Int
deriving DecidableEq, Repr

/--
`diffToDHMS` from `App.js` (lines 58–66):
```js
function diffToDHMS(target, now = new Date()) {
  let ms = Math.max(0, target - now);
  const totalSec = Math.floor(ms / 1000);
  const d = Math.floor(totalSec / 86400);
  const h = Math.floor((totalSec % 86400) / 3600);
  const m = Math.floor((totalSec % 3600) / 60);
  const s = totalSec % 60;
  return { d, h, m, s };
}
```
All quantities are non-negative after the clamp, so JS `Math.floor(x / y)` and
`x % y` agree with Euclidean `/` and `%` on `Int`.
-/
def diffToDHMS (target now : Int) : DHMS :=
  let ms := max 0 (target - now)
  let totalSec := ms / 1000
  { d := totalSec / 86400
  , h := totalSec % 86400 / 3600
  , m := totalSec % 3600 / 60
  , s := totalSec % 60 }

/--
`msUntilNextEvenHour30` from `App.js` (lines 234–247):
```js
function msUntilNextEvenHour30(now = new Date()) {
  const t = new Date(now);
  t.setSeconds(0, 0);
  if (t.getHours() % 2 === 0 && t.getMinutes() < 30) {
    const cand = new Date(t);
    cand.setMinutes(30, 0, 0);
    return cand - now;
  }
  const addHours = (t.getHours() % 2 === 1) ? 1 : 2;
  const cand = new Date(t.getTime() + addHours * 3600 * 1000);
  cand.setMinutes(30, 0, 0);
  return cand - now;
}
```
`cand.setMinutes(30, 0, 0)` keeps the hour and sets minute 30, second 0,
millisecond 0, i.e. `startOfHour cand + 30 min`.
-/
def msUntilNextEvenHour30 (now : Int) : Int :=
  let t := truncToMinute now
  if getHours t % 2 = 0 ∧ getMinutes t < 30 then
    (startOfHour t + 30 * msPerMin) - now
  else
    let addHours : Int := if getHours t % 2 = 1 then 1 else 2
    (startOfHour (t + addHours * 3600 * 1000) + 30 * msPerMin) - now

/-- Total duration (in whole seconds) represented by a `{d, h, m, s}` record. -/
def DHMS.totalSeconds (x : DHMS) : Int :=
  x.d * 86400 + x.h * 3600 + x.m * 60 + x.s

/--
Modelled from the spec (§4.2): the poll target described in words —
“truncate to the minute boundary … if current hour is even AND current
minute < 30 → target is same hour at minute 30; else → target is
(current hour + 1) if current hour is odd, else (current hour + 2), at
minute 30.”  Stated as an instant so that `msUntilNextEvenHour30 now` can be
compared with `pollTargetSpec now - now`.
-/
def pollTargetSpec (now : Int) : Int :=
  let t := truncToMinute now
  if getHours t % 2 = 0 ∧ getMinutes t < 30 then startOfHour t + 30 * msPerMin
  else if getHours t % 2 = 1 then startOfHour t + msPerHour + 30 * msPerMin
  else startOfHour t + 2 * msPerHour + 30 * msPerMin

/-!
### The data-refresh path (`loadData`, `App.js` lines 457–508) and the
poll-timer chain (`App.js` lines 513–526)

`loadData` wraps its whole body in `try { … } catch (e) { setOriginalData([]);
setData([]); }`: every failure — missing configuration, a rejected `fetch`, a
non-OK HTTP status, a rejected `res.json()`, or JSON that is not an array (on
which `rows.sort` throws a `TypeError`) — is caught locally, both state slots
are set to the empty list, and nothing propagates to the caller.  We model the
possible outcomes of the awaited network calls as an explicit `FetchOutcome`
and `loadData` as the *total* state transformer the source function denotes.
JS field values may be `null`; `Option` models that.  Numeric fields are
carried as `Option Int` (their values are never computed with here beyond the
sort key, where `Number(null) = 0` in JS, hence `none ↦ 0`).
-/

/-- A raw row as returned by the Supabase REST endpoint (fields nullable). -/
structure Row where
  account_id : Option String
  customer_name : Option String
  country : Option String
  plan : Option String
  balance : Option Int
  equity : Option Int
  open_pnl : Option Int
  pct_change : Option Int
  updated_at : Option String
deriving DecidableEq, Repr

/-- A row after `norm` (`App.js` lines 485–495): `??`-defaults applied. -/
structure NormRow where
  customer_name : String
  account_id : String
  country : String
  plan : Option String
  balance : Option Int
  equity : Option Int
  open_pnl : Option Int
  pct_change : Option Int
  updated_at : Option String
deriving DecidableEq, Repr

/-- `norm` from `App.js` lines 485–495: `r.field ?? default`. -/
def norm (r : Row) : NormRow :=
  { customer_name := r.customer_name.getD ""
  , account_id := r.account_id.getD ""
  , country := r.country.getD ""
  , plan := r.plan
  , balance := r.balance
  , equity := r.equity
  , open_pnl := r.open_pnl
  , pct_change := r.pct_change
  , updated_at := r.updated_at }

/-- Sort key of the defensive client-side sort (`App.js` lines 479–483):
`Number.isFinite(Number(a.pct_change)) ? Number(a.pct_change) : -Infinity`.
JS `Number(null) = 0`, which is finite, so a `null` key sorts as `0`. -/
def sortKey (r : Row) : Int := r.pct_change.getD 0

/-- Stable insertion preserving the descending order of `sortKey`
(the comparator `bv - av` sorts descending; ties keep source order). -/
def insertRow (x : Row) : List Row → List Row
  | [] => [x]
  | y :: ys => if sortKey y ≤ sortKey x then x :: y :: ys else y :: insertRow x ys

/-- The stable descending sort `rows.sort((a, b) => bv - av)`. -/
def sortRows : List Row → List Row
  | [] => []
  | x :: xs => insertRow x (sortRows xs)

/-- Outcome of the awaited steps inside `loadData`'s `try` block. -/
inductive FetchOutcome where
  /-- `fetch` itself rejects (network error). -/
  | netError
  /-- `res.ok` is false: the code throws `HTTP ${status}: ${body}`. -/
  | httpError (status : Nat) (body : String)
  /-- `res.json()` rejects (malformed body). -/
  | jsonError
  /-- the body parses but is not an array: `rows.sort` throws a `TypeError`. -/
  | jsonNonArray
  /-- the body parses to an array of rows. -/
  | ok (rows : List Row)
deriving DecidableEq, Repr

/-- Whether a `FetchOutcome` is one of the failure cases. -/
def FetchOutcome.isFailure : FetchOutcome → Bool
  | .netError => true
  | .httpError _ _ => true
  | .jsonError => true
  | .jsonNonArray => true
  | .ok _ => false

/-- JS truthiness of an environment string: `undefined` and `""` are falsy. -/
def truthy : Option String → Bool
  | none => false
  | some s => !(s == "")

/-- The two React state slots written by `loadData`
(`setOriginalData` / `setData`). -/
structure AppState where
  originalData : List NormRow
  data : List NormRow
deriving DecidableEq, Repr

/--
`loadData` from `App.js` lines 457–508, as the total transformer on the two
state slots.  `url`/`anon` are `REACT_APP_SUPABASE_URL` /
`REACT_APP_SUPABASE_ANON_KEY`; the guard `!SUPABASE_URL || !SUPABASE_ANON`
throws, which the catch-all turns into `([], [])`, exactly like every other
failure.  On success the rows are sorted descending by `pct_change`,
normalised, and written to both slots.  `prev` is the pre-call state; the
source overwrites it unconditionally on every path.
-/
def loadData (url anon : Option String) (fetch : FetchOutcome) (_prev : AppState) : AppState :=
  if !(truthy url) || !(truthy anon) then { originalData := [], data := [] }
  else
    match fetch with
    | .netError => { originalData := [], data := [] }
    | .httpError _ _ => { originalData := [], data := [] }
    | .jsonError => { originalData := [], data := [] }
    | .jsonNonArray => { originalData := [], data := [] }
    | .ok rows =>
      let d := (sortRows rows).map norm
      { originalData := d, data := d }

/-!
### The poll-timer chain (`App.js` lines 513–526)

```js
useEffect(() => {
  let cancelled = false;
  let timeoutId;
  function arm() {
    const ms = msUntilNextEvenHour30();
    timeoutId = setTimeout(async () => {
      if (cancelled) return;
      await loadData();
      arm();
    }, ms);
  }
  arm();
  return () => { cancelled = true; if (timeoutId) clearTimeout(timeoutId); };
}, []);
```

The timer callback awaits `loadData()` and then re-arms.  `loadData` is total
(its catch-all absorbs every failure), so in this model the `await` always
resolves and the re-arm is unconditional whenever the chain has not been
cancelled.
-/

/-- The closure state of the poll `useEffect`: the `cancelled` flag and the
pending one-shot timer (its delay in ms), if any. -/
structure PollTimerState where
  cancelled : Bool
  timeoutId : Option Int
deriving DecidableEq, Repr

/-- `arm()`: compute the delay to the next even-hour `:30` anchor and set the
one-shot timer. -/
def arm (now : Int) (st : PollTimerState) : PollTimerState :=
  { st with timeoutId := some (msUntilNextEvenHour30 now) }

/--
One firing of the pending poll timer at instant `now`, with the given
environment configuration and fetch outcome: if cancelled, nothing runs and no
timer remains; otherwise `loadData` runs (always resolving, whatever the
outcome) and `arm` re-arms for the next anchor.
-/
def onPollFire (st : PollTimerState) (now : Int) (url anon : Option String)
    (fetch : FetchOutcome) (app : AppState) : PollTimerState × AppState :=
  if st.cancelled then ({ st with timeoutId := none }, app)
  else
    let app2 := loadData url anon fetch app
    (arm now { st with timeoutId := none }, app2)

/-!
## Shared lemmas
-/

/-- Closed form of `getThisMondayNoon`: noon of the day `diffToMonday` days
before the day containing `now`. -/
theorem getThisMondayNoon_eq (now : Int) :
    getThisMondayNoon now = msPerDay * (dayIndex now - (getDay now + 6) % 7) + 12 * msPerHour := by
  simp only [getThisMondayNoon, getDay, dayIndex, startOfDay, msPerHour, msPerDay]
  omega

/-- The anchor lands on a Monday (`getDay = 1`). -/
theorem getDay_anchor (now : Int) : getDay (getThisMondayNoon now) = 1 := by
  rw [getThisMondayNoon_eq]
  simp only [getDay, dayIndex, msOfDay, msPerHour, msPerDay]
  omega

/-- The anchor's time of day is exactly 12:00:00.000 (43200000 ms). -/
theorem msOfDay_anchor (now : Int) : msOfDay (getThisMondayNoon now) = 43200000 := by
  rw [getThisMondayNoon_eq]
  simp only [msOfDay, getDay, dayIndex, msPerHour, msPerDay]
  omega

/-!
## Claims
-/

/-- Claim C1 (counterexample): at `now` = an even hour's minute 30 exactly
(02:30:00.000 local, instant 9000000), `msUntilNextEvenHour30` returns exactly
7200000 ms, so the claimed strict bound `< 7200000` fails. -/
theorem msUntilNextEvenHour30_not_lt_7200000 :
    ¬ (msUntilNextEvenHour30 9000000 < 7200000) := by decide

/-- Claim C1 (amended): for every instant `now`, `msUntilNextEvenHour30 now`
lies in the half-open range `(0, 7200000]` — always strictly positive and at
most 2 hours, with 7200000 attained exactly at an even hour's minute-30
boundary. -/
theorem msUntilNextEvenHour30_range (now : Int) :
    0 < msUntilNextEvenHour30 now ∧ msUntilNextEvenHour30 now ≤ 7200000 := by
  simp only [msUntilNextEvenHour30, truncToMinute, getHours, getMinutes, msOfDay, startOfHour,
    msPerMin, msPerHour, msPerDay, msPerSec]
  split
  · omega
  · split <;> omega

/-- Claim C2: for every instant `now`, `getNextResetTarget now` is strictly
later than `now` — in particular also at the boundary `now =
getThisMondayNoon now`, where the result is the anchor plus 7 days. -/
theorem getNextResetTarget_future (now : Int) :
    getNextResetTarget now > now ∧
    (now = getThisMondayNoon now →
      getNextResetTarget now = getThisMondayNoon now + 7 * msPerDay) := by
  constructor
  · simp only [getNextResetTarget]
    split
    · omega
    · rw [getThisMondayNoon_eq]
      simp only [getDay, dayIndex, msPerHour, msPerDay]
      omega
  · intro h
    simp only [getNextResetTarget]
    rw [if_neg (by omega)]

/-- Claim C2 witness: at instant 388800000 (a Monday, local 12:00:00.000
exactly), the boundary case yields the anchor plus 7 days. -/
theorem getNextResetTarget_future_witness :
    getNextResetTarget 388800000 = getThisMondayNoon 388800000 + 7 * msPerDay :=
  (getNextResetTarget_future 388800000).2 (by decide)

/-- Claim C3: `msUntilNextEvenHour30 now` equals `pollTargetSpec now - now`,
where `pollTargetSpec` is the spec's word-for-word target (same even hour at
minute 30 when the minute is below 30; next hour at minute 30 after an odd
hour; two hours later at minute 30 otherwise), the minute truncation included;
concretely, `now` = 01:15 local yields 75 minutes and `now` = 02:10 local
yields 20 minutes. -/
theorem msUntilNextEvenHour30_matches_target :
    (∀ now : Int, msUntilNextEvenHour30 now = pollTargetSpec now - now) ∧
    msUntilNextEvenHour30 4500000 = 75 * msPerMin ∧
    msUntilNextEvenHour30 7800000 = 20 * msPerMin := by
  refine ⟨?_, by decide, by decide⟩
  intro now
  simp only [msUntilNextEvenHour30, pollTargetSpec, truncToMinute, getHours, getMinutes, msOfDay,
    startOfHour, msPerMin, msPerHour, msPerDay, msPerSec]
  split
  · omega
  · split <;> omega

/-- Claim C4: every component of `diffToDHMS target now` is in range:
`0 ≤ s < 60`, `0 ≤ m < 60`, `0 ≤ h < 24`, `0 ≤ d`. -/
theorem diffToDHMS_component_bounds (target now : Int) :
    0 ≤ (diffToDHMS target now).s ∧ (diffToDHMS target now).s < 60 ∧
    0 ≤ (diffToDHMS target now).m ∧ (diffToDHMS target now).m < 60 ∧
    0 ≤ (diffToDHMS target now).h ∧ (diffToDHMS target now).h < 24 ∧
    0 ≤ (diffToDHMS target now).d := by
  simp only [diffToDHMS]
  refine ⟨?_, ?_, ?_, ?_, ?_, ?_, ?_⟩ <;> omega

/-- Claim C5: for a fixed `target`, the total duration represented by
`diffToDHMS target now` is non-increasing as `now` increases, and the result
is exactly `{0, 0, 0, 0}` whenever `now ≥ target`. -/
theorem diffToDHMS_antitone_and_zero :
    (∀ target n1 n2 : Int, n1 ≤ n2 →
      (diffToDHMS target n2).totalSeconds ≤ (diffToDHMS target n1).totalSeconds) ∧
    (∀ target now : Int, target ≤ now → diffToDHMS target now = ⟨0, 0, 0, 0⟩) := by
  constructor
  · intro target n1 n2 h
    simp only [diffToDHMS, DHMS.totalSeconds]
    omega
  · intro target now h
    simp only [diffToDHMS]
    have hmax : max 0 (target - now) = 0 := by omega
    rw [hmax]
    rfl

/-- Claim C5 witness: concrete instances of both conjuncts. -/
theorem diffToDHMS_antitone_and_zero_witness :
    (diffToDHMS 10000 3000).totalSeconds ≤ (diffToDHMS 10000 2000).totalSeconds ∧
    diffToDHMS 5 10 = ⟨0, 0, 0, 0⟩ :=
  ⟨diffToDHMS_antitone_and_zero.1 10000 2000 3000 (by decide),
   diffToDHMS_antitone_and_zero.2 5 10 (by decide)⟩

/-- Claim C6: for every instant `now`, `getThisMondayNoon now` falls on a
Monday (`getDay = 1`, ISO-style week arithmetic via `(day + 6) % 7`) and its
local time of day is exactly 12:00:00.000. -/
theorem getThisMondayNoon_is_monday_noon (now : Int) :
    getDay (getThisMondayNoon now) = 1 ∧
    getHours (getThisMondayNoon now) = 12 ∧
    getMinutes (getThisMondayNoon now) = 0 ∧
    getSeconds (getThisMondayNoon now) = 0 ∧
    getMilliseconds (getThisMondayNoon now) = 0 := by
  refine ⟨getDay_anchor now, ?_⟩
  rw [getThisMondayNoon_eq]
  simp only [getHours, getMinutes, getSeconds, getMilliseconds, msOfDay, getDay, dayIndex,
    msPerSec, msPerMin, msPerHour, msPerDay]
  refine ⟨?_, ?_, ?_, ?_⟩ <;> omega

/-- Claim C7: `getThisMondayNoon` is idempotent. -/
theorem getThisMondayNoon_idempotent (now : Int) :
    getThisMondayNoon (getThisMondayNoon now) = getThisMondayNoon now := by
  rw [getThisMondayNoon_eq (getThisMondayNoon now), getDay_anchor]
  have h2 := msOfDay_anchor now
  simp only [msOfDay, dayIndex, msPerHour, msPerDay] at h2 ⊢
  omega

/-- Claim C8: whenever the poll timer fires with the chain not cancelled and
the refresh attempt fails (missing configuration, rejected fetch, non-OK HTTP
response, or bad JSON), the scheduler still re-arms a one-shot timer for the
next even-hour `:30` anchor, so one failed refresh never prevents subsequent
scheduled refreshes. -/
theorem onPollFire_rearms_on_failure (st : PollTimerState) (now : Int)
    (url anon : Option String) (fetch : FetchOutcome) (app : AppState)
    (hc : st.cancelled = false)
    (_hf : truthy url = false ∨ truthy anon = false ∨ fetch.isFailure = true) :
    (onPollFire st now url anon fetch app).1.timeoutId =
      some (msUntilNextEvenHour30 now) ∧
    (onPollFire st now url anon fetch app).1.cancelled = false := by
  simp [onPollFire, arm, hc]

/-- Claim C8 witness: a rejected fetch with a live (uncancelled) chain. -/
theorem onPollFire_rearms_on_failure_witness :
    (onPollFire ⟨false, some 1⟩ 0 (some "u") (some "k") .netError ⟨[], []⟩).1.timeoutId =
      some (msUntilNextEvenHour30 0) ∧
    (onPollFire ⟨false, some 1⟩ 0 (some "u") (some "k") .netError ⟨[], []⟩).1.cancelled = false :=
  onPollFire_rearms_on_failure ⟨false, some 1⟩ 0 (some "u") (some "k") .netError ⟨[], []⟩
    rfl (Or.inr (Or.inr rfl))

/-- Claim C9: the components of `diffToDHMS target now` recompose exactly to
the clamped whole-second difference: `d*86400 + h*3600 + m*60 + s =
⌊max(0, target − now) / 1000⌋`. -/
theorem diffToDHMS_recompose (target now : Int) :
    (diffToDHMS target now).totalSeconds = max 0 (target - now) / 1000 := by
  simp only [diffToDHMS, DHMS.totalSeconds]
  omega

/-- Claim C10: on every failure of `loadData` (missing configuration, network
error, non-OK HTTP status, JSON error, or non-array JSON) the error is
absorbed locally — `loadData` is a total function, so nothing propagates —
and both state slots are set to the empty list, discarding whatever rows were
previously displayed. -/
theorem loadData_failure_clears_state (prev : AppState) (url anon : Option String)
    (fetch : FetchOutcome)
    (hf : truthy url = false ∨ truthy anon = false ∨ fetch.isFailure = true) :
    loadData url anon fetch prev = { originalData := [], data := [] } := by
  simp only [loadData]
  rcases hf with h | h | h
  · rw [if_pos]
    simp [h]
  · rw [if_pos]
    simp [h]
  · rcases hcfg : (!(truthy url) || !(truthy anon)) with _ | _
    · rw [if_neg (by simp_all)]
      cases fetch with
      | netError => rfl
      | httpError s b => rfl
      | jsonError => rfl
      | jsonNonArray => rfl
      | ok rows => simp [FetchOutcome.isFailure] at h
    · rw [if_pos (by simp_all)]

/-- Claim C10 witness: an HTTP 500 failure with configuration present and a
non-empty previously displayed list. -/
theorem loadData_failure_clears_state_witness :
    loadData (some "u") (some "k") (.httpError 500 "boom")
      { originalData := [], data := [] } = { originalData := [], data := [] } :=
  loadData_failure_clears_state { originalData := [], data := [] }
    (some "u") (some "k") (.httpError 500 "boom") (Or.inr (Or.inr rfl))

end E2T
